import Mathlib

/-!
Verification development for the a2a-demo conversation/event subsystem.

The definitions below are a shallow embedding of the TypeScript source:
* `src/types/conversation.ts`, `src/types/event.ts` — the data model;
* `src/lib/conversationStore.ts` — `ConversationStore` (a `Map` from
  conversation id to conversation, embedded as a list of conversations
  keyed by their `id` field, first-match semantics matching the unique-key
  discipline of a JS `Map`);
* `src/lib/eventStore.ts` — `EventStore` (a `Map` from conversation id to
  an event list, embedded as an association list);
* `src/app/api/...` route handlers for PATCH/DELETE conversations,
  events, and agent registration;
* the `syncMessages` effect in
  `src/app/conversations/components/ChatArea.tsx` (the stream reconciler)
  and the `A2AEventLogger` component (the call/response logger).

JS runtime objects for events are embedded as a record with a `type` tag
and one optional field per union-member payload field (absent = `none`),
so that the object-spread merge in `updateEvent` can be stated faithfully.
Nondeterministic id/timestamp generation (`Date.now()` plus a random
suffix) is embedded as a deterministic fresh-name supply driven by a
counter; wall-clock instants observed by the call/response logger are
explicit `Int` inputs.
-/

namespace A2ADemo

/-- Message role, the TS union `"user" | "assistant"`. -/
inductive Role where
  | user
  | assistant
deriving DecidableEq, Repr

/-- A chat message (`Message` in `src/types/conversation.ts`). -/
structure Message where
  id : String
  role : Role
  content : String
deriving DecidableEq, Repr

/-- A conversation (`Conversation` in `src/types/conversation.ts`). -/
structure Conversation where
  id : String
  name : String
  threadId : String
  createdAt : String
  messageCount : Nat
  messages : List Message
deriving DecidableEq, Repr

/-- The conversation object built by `ConversationStore.create`: fresh id,
`threadId = "thread_" + id`, auto-generated name from the counter, empty
message list and `messageCount = 0`. -/
def mkNewConversation (counter : Nat) (id createdAt : String) : Conversation :=
  { id := id
    name := "Conversation " ++ toString counter
    threadId := "thread_" ++ id
    createdAt := createdAt
    messageCount := 0
    messages := [] }

/-- The in-memory conversation store: the values of the JS `Map` keyed by
conversation `id`. Lookups and mutations use first-match semantics, which
coincides with `Map` semantics because `Map` keys are unique. -/
abbrev ConversationStore := List Conversation

/-- Replace the first message with the same `id`, else append
(`findIndex` + in-place assignment / `push` in `upsertMessage`). -/
def upsertList : List Message → Message → List Message
  | [], m => [m]
  | x :: t, m => if x.id = m.id then m :: t else x :: upsertList t m

namespace ConversationStore

/-- `ConversationStore.get`: `this.conversations.get(id)`. -/
def get : ConversationStore → String → Option Conversation
  | [], _ => none
  | c :: t, id => if c.id = id then some c else get t id

/-- In-place mutation of the conversation stored under `id` (mutating the
object returned by `Map.get`, or `Map.set` on an existing key). -/
def updateFirst : ConversationStore → String → (Conversation → Conversation) → ConversationStore
  | [], _, _ => []
  | c :: t, id, f => if c.id = id then f c :: t else c :: updateFirst t id f

/-- `ConversationStore.create`: append the freshly built conversation
(`Map.set` with a brand-new key). -/
def create (s : ConversationStore) (counter : Nat) (id createdAt : String) :
    Conversation × ConversationStore :=
  let c := mkNewConversation counter id createdAt
  (c, s ++ [c])

/-- `ConversationStore.addMessage`: push the message and recompute
`messageCount`; `false` if the conversation is not found. -/
def addMessage (s : ConversationStore) (id : String) (m : Message) :
    Bool × ConversationStore :=
  match s.get id with
  | none => (false, s)
  | some _ =>
    (true, updateFirst s id (fun c =>
      let ms := c.messages ++ [m]
      { c with messages := ms, messageCount := ms.length }))

/-- `ConversationStore.addMessages`: push each message, then recompute
`messageCount` once. -/
def addMessages (s : ConversationStore) (id : String) (msgs : List Message) :
    Bool × ConversationStore :=
  match s.get id with
  | none => (false, s)
  | some _ =>
    (true, updateFirst s id (fun c =>
      let ms := c.messages ++ msgs
      { c with messages := ms, messageCount := ms.length }))

/-- `ConversationStore.upsertMessage`: replace in place by message id if
present, else append; recompute `messageCount`. -/
def upsertMessage (s : ConversationStore) (id : String) (m : Message) :
    Bool × ConversationStore :=
  match s.get id with
  | none => (false, s)
  | some _ =>
    (true, updateFirst s id (fun c =>
      let ms := upsertList c.messages m
      { c with messages := ms, messageCount := ms.length }))

/-- `ConversationStore.delete`: `this.conversations.delete(id)` — `true`
if the key existed and was removed. -/
def deleteConv : ConversationStore → String → Bool × ConversationStore
  | [], _ => (false, [])
  | c :: t, id =>
    if c.id = id then (true, t)
    else
      let r := deleteConv t id
      (r.1, c :: r.2)

/-- `ConversationStore.getMessages`: `conversation?.messages || []`. -/
def getMessages (s : ConversationStore) (id : String) : List Message :=
  match s.get id with
  | none => []
  | some c => c.messages

end ConversationStore

/-- The update payload accepted by `ConversationStore.update`: the TS type
`Partial<Omit<Conversation, "id" | "threadId">>` (every remaining field
optional; `id` and `threadId` are excluded by the type). -/
structure ConvUpdates where
  name : Option String := none
  createdAt : Option String := none
  messageCount : Option Nat := none
  messages : Option (List Message) := none
deriving DecidableEq, Repr

/-- The object spread `{ ...conversation, ...updates }`: a field present in
`updates` overrides, an absent one keeps the stored value. -/
def applyConvUpdates (c : Conversation) (u : ConvUpdates) : Conversation :=
  { c with
    name := u.name.getD c.name
    createdAt := u.createdAt.getD c.createdAt
    messageCount := u.messageCount.getD c.messageCount
    messages := u.messages.getD c.messages }

/-- `ConversationStore.update`: merge the partial update into the stored
conversation and re-store it under the same key; `none` if not found. -/
def ConversationStore.update (s : ConversationStore) (id : String) (u : ConvUpdates) :
    Option Conversation × ConversationStore :=
  match s.get id with
  | none => (none, s)
  | some c =>
    (some (applyConvUpdates c u), ConversationStore.updateFirst s id (fun c0 => applyConvUpdates c0 u))

/-- The body of `PATCH /api/conversations/[id]`: the route extracts only
`name` and `messageCount` from the JSON body. -/
structure PatchBody where
  name : Option String := none
  messageCount : Option Nat := none
deriving DecidableEq, Repr

/-- `PATCH /api/conversations/[id]`: build the update object from the
`name` and `messageCount` body fields and call `ConversationStore.update`;
`none` stands for the 404 response. -/
def patchConversationRoute (s : ConversationStore) (id : String) (b : PatchBody) :
    Option Conversation × ConversationStore :=
  ConversationStore.update s id
    { name := b.name, messageCount := b.messageCount }

/-- The `EventType` string enum of `src/types/event.ts`. -/
inductive EventType where
  | userMessage
  | assistantMessage
  | a2aCall
  | a2aResponse
  | error
deriving DecidableEq, Repr

/-- The `status` field of an `A2AResponseEvent`: `"success" | "error"`. -/
inductive ResponseStatus where
  | success
  | error
deriving DecidableEq, Repr

/-- An event as the JS runtime object behind the discriminated union in
`src/types/event.ts`: the common fields plus a `type` tag, and one
optional slot per variant payload field (`none` = field absent on the
object). Well-typed events populate exactly the fields of their variant;
keeping the others explicit lets the object-spread merge in
`EventStore.updateEvent` be embedded faithfully. -/
structure Event where
  id : String
  conversationId : String
  timestamp : String
  type : EventType
  messageId : Option String := none
  content : Option String := none
  actionId : Option String := none
  agentName : Option String := none
  task : Option String := none
  result : Option String := none
  durationMs : Option Int := none
  status : Option ResponseStatus := none
  message : Option String := none
  details : Option String := none
  relatedEventId : Option String := none
deriving DecidableEq, Repr

/-- A `UserMessageEvent` literal as built in `EventContext.logUserMessage`. -/
def mkUserMessageEvent (id cid ts mid content : String) : Event :=
  { id := id, conversationId := cid, timestamp := ts, type := .userMessage,
    messageId := some mid, content := some content }

/-- An `AssistantMessageEvent` literal as built in
`EventContext.logAssistantMessage`. -/
def mkAssistantMessageEvent (id cid ts mid content : String) : Event :=
  { id := id, conversationId := cid, timestamp := ts, type := .assistantMessage,
    messageId := some mid, content := some content }

/-- An `A2ACallEvent` literal as built in `EventContext.logA2ACall`. -/
def mkA2ACallEvent (id cid ts actionId agentName task : String) : Event :=
  { id := id, conversationId := cid, timestamp := ts, type := .a2aCall,
    actionId := some actionId, agentName := some agentName, task := some task }

/-- An `A2AResponseEvent` literal as built in `EventContext.logA2AResponse`. -/
def mkA2AResponseEvent (id cid ts actionId agentName task result : String)
    (durationMs : Option Int) (status : ResponseStatus) : Event :=
  { id := id, conversationId := cid, timestamp := ts, type := .a2aResponse,
    actionId := some actionId, agentName := some agentName, task := some task,
    result := some result, durationMs := durationMs, status := some status }

/-- `Partial<Event>` at the JS runtime: any subset of the fields of the
runtime event object, each optionally present. -/
structure EventUpdates where
  id : Option String := none
  conversationId : Option String := none
  timestamp : Option String := none
  type : Option EventType := none
  messageId : Option String := none
  content : Option String := none
  actionId : Option String := none
  agentName : Option String := none
  task : Option String := none
  result : Option String := none
  durationMs : Option Int := none
  status : Option ResponseStatus := none
  message : Option String := none
  details : Option String := none
  relatedEventId : Option String := none
deriving DecidableEq, Repr

/-- Spread semantics on an already-optional slot: a field present in the
update overrides, an absent one keeps the old value. -/
def mergeOpt {α : Type} (u old : Option α) : Option α :=
  match u with
  | some v => some v
  | none => old

/-- The object spread `{ ...existingEvent, ...updates }` performed by
`EventStore.updateEvent` (note that a `type` field present in `updates`
does override the discriminant — the spread is blind). -/
def mergeEvent (e : Event) (u : EventUpdates) : Event :=
  { id := u.id.getD e.id
    conversationId := u.conversationId.getD e.conversationId
    timestamp := u.timestamp.getD e.timestamp
    type := u.type.getD e.type
    messageId := mergeOpt u.messageId e.messageId
    content := mergeOpt u.content e.content
    actionId := mergeOpt u.actionId e.actionId
    agentName := mergeOpt u.agentName e.agentName
    task := mergeOpt u.task e.task
    result := mergeOpt u.result e.result
    durationMs := mergeOpt u.durationMs e.durationMs
    status := mergeOpt u.status e.status
    message := mergeOpt u.message e.message
    details := mergeOpt u.details e.details
    relatedEventId := mergeOpt u.relatedEventId e.relatedEventId }

/-- `isMessageEvent e` holds when `e.type` is `USER_MESSAGE` or
`ASSISTANT_MESSAGE` — the test used by the dedup guard. -/
def isMessageEvent (e : Event) : Prop :=
  e.type = EventType.userMessage ∨ e.type = EventType.assistantMessage

instance (e : Event) : Decidable (isMessageEvent e) := by
  unfold isMessageEvent
  infer_instance

/-- The event store: the JS `Map` from conversation id to its event list,
embedded as an association list with first-match (= unique-key) semantics. -/
abbrev EventStore := List (String × List Event)

namespace EventStore

/-- `this.events.get(conversationId)` — `none` when the key is absent. -/
def getEntry : EventStore → String → Option (List Event)
  | [], _ => none
  | p :: t, cid => if p.1 = cid then some p.2 else getEntry t cid

/-- `EventStore.getEvents`: `this.events.get(conversationId) || []`. -/
def getEvents (s : EventStore) (cid : String) : List Event :=
  (s.getEntry cid).getD []

/-- `this.events.set(conversationId, evs)`: replace the entry in place if
the key exists, else append a new entry. -/
def setEvents : EventStore → String → List Event → EventStore
  | [], cid, evs => [(cid, evs)]
  | p :: t, cid, evs => if p.1 = cid then (cid, evs) :: t else p :: setEvents t cid evs

/-- The `find` inside `findEventByMessageId`: first event whose type is
`USER_MESSAGE` or `ASSISTANT_MESSAGE` (either one) with the given
`messageId`. -/
def findMsgEvent : List Event → Option String → Option Event
  | [], _ => none
  | e :: t, mid =>
    if isMessageEvent e ∧ e.messageId = mid then some e else findMsgEvent t mid

/-- `EventStore.findEventByMessageId` on a conversation's log. -/
def findEventByMessageId (s : EventStore) (cid : String) (mid : Option String) :
    Option Event :=
  findMsgEvent (s.getEvents cid) mid

/-- `EventStore.addEvent`: dedup `USER_MESSAGE`/`ASSISTANT_MESSAGE` events
by `messageId` (silently drop the new event when a message event with the
same `messageId` already exists), then push and re-set the entry. -/
def addEvent (s : EventStore) (cid : String) (e : Event) : EventStore :=
  let evs := s.getEvents cid
  if isMessageEvent e ∧ (findMsgEvent evs e.messageId).isSome then s
  else s.setEvents cid (evs ++ [e])

/-- The `findIndex` + in-place assignment inside `updateEvent`: replace the
first event with the given id by its spread-merge with the updates;
`none` when no event has that id. -/
def updateEventList : List Event → String → EventUpdates → Option (List Event)
  | [], _, _ => none
  | e :: t, eid, u =>
    if e.id = eid then some (mergeEvent e u :: t)
    else (updateEventList t eid u).map (fun t' => e :: t')

/-- `EventStore.updateEvent`: `false` if the conversation entry is absent
or no event has the id; otherwise merge in place. -/
def updateEvent (s : EventStore) (cid eid : String) (u : EventUpdates) :
    Bool × EventStore :=
  match s.getEntry cid with
  | none => (false, s)
  | some evs =>
    match updateEventList evs eid u with
    | none => (false, s)
    | some evs' => (true, s.setEvents cid evs')

/-- `EventStore.getEventCount`: `this.getEvents(conversationId).length`. -/
def getEventCount (s : EventStore) (cid : String) : Nat :=
  (s.getEvents cid).length

/-- `EventStore.clearEvents`: `this.events.delete(conversationId)`. -/
def clearEvents : EventStore → String → EventStore
  | [], _ => []
  | p :: t, cid => if p.1 = cid then t else p :: clearEvents t cid

end EventStore

/-- `DELETE /api/conversations/[id]`: the route calls only
`conversationStore.delete(id)`; the event store is not touched by the
handler (there is no call into `eventStore` anywhere in the route). -/
def deleteConversationRoute (cs : ConversationStore) (es : EventStore) (id : String) :
    Bool × ConversationStore × EventStore :=
  let r := cs.deleteConv id
  (r.1, r.2, es)

/-- Strip one trailing slash: the regex replace `url.replace(/\/$/, "")`
used to normalize agent URLs in `POST`/`DELETE /api/agents`, stated on the
character sequence. -/
def stripTrailingSlash (u : String) : String :=
  if u.data.getLast? = some '/' then String.mk u.data.dropLast else u

/-- `v.startsWith(w)` on the character sequences. -/
def startsWithStr (w u : String) : Bool :=
  w.data.isPrefixOf u.data

/-- The URL normalization inside `fetchAgentCard` (`src/lib/agentCard.ts`):
strip one trailing slash, then prefix `"http://"` when no scheme is
present. This normalization is applied only to build the card-fetch URL;
it is not applied to the registry key. -/
def fetchCardNormalize (u : String) : String :=
  let v := stripTrailingSlash u
  if startsWithStr "http://" v ∨ startsWithStr "https://" v then v else "http://" ++ v

/-- Outcome of the registration flow of `POST /api/agents` (the card fetch
is external; `proceed` records that the request passed the duplicate check
and continues to card validation). -/
inductive RegisterOutcome where
  | conflict (normalizedUrl : String)
  | proceed (normalizedUrl : String)
deriving DecidableEq, Repr

/-- `POST /api/agents` on the happy validation path: normalize by
stripping one trailing slash, answer 409 `conflict` when the normalized
URL is already registered, otherwise (card fetch and validation assumed to
succeed) add the normalized URL to the registry. -/
def registerAgentOk (reg : List String) (url : String) : RegisterOutcome × List String :=
  let n := stripTrailingSlash url
  if n ∈ reg then (.conflict n, reg)
  else (.proceed n, reg ++ [n])

/-- A live chat message as observed by the `syncMessages` effect in
`ChatArea.tsx`; `isTextMessage` models `msg.isTextMessage()`. -/
structure LiveMessage where
  id : String
  role : Role
  content : String
  isTextMessage : Bool
deriving DecidableEq, Repr

/-- Truthiness of `msg.content.trim()`: the trimmed string is non-empty
exactly when some character is not whitespace. -/
def hasNonWhitespace (s : String) : Bool :=
  s.data.any (fun c => !c.isWhitespace)

/-- A string-keyed map update (`ref.current.set(k, v)` on a JS `Map`):
replace in place when the key exists, else append. -/
def mapSet : List (String × String) → String → String → List (String × String)
  | [], k, v => [(k, v)]
  | p :: t, k, v => if p.1 = k then (k, v) :: t else p :: mapSet t k v

/-- `Map.get` on a string-keyed JS map. -/
def mapGet : List (String × String) → String → Option String
  | [], _ => none
  | p :: t, k => if p.1 = k then some p.2 else mapGet t k

/-- Deterministic fresh-name supply standing in for the
`` `evt_${Date.now()}_${random}` `` event-id generation. -/
def genEventId (n : Nat) : String := "evt_" ++ toString n

/-- Deterministic supply standing in for `new Date().toISOString()`. -/
def genTimestamp (n : Nat) : String := "ts_" ++ toString n

/-- The mutable state of the `syncMessages` effect:
`savedMessagesRef` (message id → last saved content),
`messageEventIdsRef` (message id → event id), the two server-side stores
it drives through the HTTP routes, and the fresh-id counter. -/
structure ReconState where
  savedMessages : List (String × String)
  messageEventIds : List (String × String)
  convStore : ConversationStore
  eventStore : EventStore
  nextEvt : Nat
deriving DecidableEq, Repr

/-- One iteration of the `for (const msg of visibleMessages)` loop in the
`syncMessages` effect of `ChatArea.tsx`:
skip non-text messages; skip when the content equals the last saved
content; skip empty assistant placeholders without updating
`lastSavedContent`; otherwise upsert the message into the conversation
store, record the content, and (when the trimmed content is non-blank)
create or update the corresponding message event. -/
def processMessage (cid : String) (st : ReconState) (msg : LiveMessage) : ReconState :=
  if !msg.isTextMessage then st
  else if mapGet st.savedMessages msg.id = some msg.content then st
  else if msg.role = Role.assistant ∧ msg.content = "" then st
  else
    let cs := (st.convStore.upsertMessage cid ⟨msg.id, msg.role, msg.content⟩).2
    let st1 := { st with
      convStore := cs
      savedMessages := mapSet st.savedMessages msg.id msg.content }
    if hasNonWhitespace msg.content then
      match msg.role with
      | Role.user =>
        match mapGet st1.messageEventIds msg.id with
        | some _ => st1
        | none =>
          let eid := genEventId st1.nextEvt
          let ev := mkUserMessageEvent eid cid (genTimestamp st1.nextEvt) msg.id msg.content
          { st1 with
            eventStore := st1.eventStore.addEvent cid ev
            messageEventIds := mapSet st1.messageEventIds msg.id eid
            nextEvt := st1.nextEvt + 1 }
      | Role.assistant =>
        match mapGet st1.messageEventIds msg.id with
        | some eid =>
          { st1 with
            eventStore := (st1.eventStore.updateEvent cid eid { content := some msg.content }).2 }
        | none =>
          let eid := genEventId st1.nextEvt
          let ev := mkAssistantMessageEvent eid cid (genTimestamp st1.nextEvt) msg.id msg.content
          { st1 with
            eventStore := st1.eventStore.addEvent cid ev
            messageEventIds := mapSet st1.messageEventIds msg.id eid
            nextEvt := st1.nextEvt + 1 }
    else st1

/-- One reconciler tick: process the observed live message list in order. -/
def reconTick (cid : String) (st : ReconState) (msgs : List LiveMessage) : ReconState :=
  msgs.foldl (processMessage cid) st

/-- The mutable state of one `A2AEventLogger` instance:
`previousStatusRef`, `callStartTimeRef`, the fresh-id counter and the
event store reached through `logA2ACall` / `logA2AResponse`. -/
structure LoggerState where
  previousStatus : Option String
  callStartTime : Int
  nextEvt : Nat
  eventStore : EventStore
deriving DecidableEq, Repr

/-- One observation consumed by the logger effect: the reported action
status and the wall-clock instant (`Date.now()`) at which the effect runs. -/
structure Observation where
  status : String
  now : Int
deriving DecidableEq, Repr

/-- One run of the `A2AEventLogger` effect in `ChatArea.tsx`: on the edge
into `"executing"` record the start time and log an `A2ACall`; on the edge
into `"complete"` log an `A2AResponse` whose `durationMs` is the elapsed
time since the recorded start; finally remember the observed status. -/
def observeStatus (cid actionId agentName task resultText : String)
    (st : LoggerState) (o : Observation) : LoggerState :=
  let prev := st.previousStatus
  let st1 :=
    if o.status = "executing" ∧ ¬ prev = some "executing" then
      { st with
        callStartTime := o.now
        eventStore := st.eventStore.addEvent cid
          (mkA2ACallEvent (genEventId st.nextEvt) cid (genTimestamp st.nextEvt)
            actionId agentName task)
        nextEvt := st.nextEvt + 1 }
    else st
  let st2 :=
    if o.status = "complete" ∧ ¬ prev = some "complete" then
      { st1 with
        eventStore := st1.eventStore.addEvent cid
          (mkA2AResponseEvent (genEventId st1.nextEvt) cid (genTimestamp st1.nextEvt)
            actionId agentName task resultText (some (o.now - st1.callStartTime))
            ResponseStatus.success)
        nextEvt := st1.nextEvt + 1 }
    else st1
  { st2 with previousStatus := some o.status }

/-- Run the logger over a sequence of observations. -/
def observeAll (cid actionId agentName task resultText : String)
    (st : LoggerState) (obs : List Observation) : LoggerState :=
  obs.foldl (observeStatus cid actionId agentName task resultText) st

/-! ### Scenario states for the streaming-reconciliation claim -/

/-- Fresh reconciler state over a store holding one just-created
conversation `cid` and an empty event store. -/
def c1Init (cid : String) : ReconState :=
  ⟨[], [], [mkNewConversation 1 cid "t0"], [], 0⟩

/-- The live assistant message as observed by one tick. -/
def c1Msg (mid content : String) : LiveMessage :=
  ⟨mid, Role.assistant, content, true⟩

/-- State after the reconciler observes the empty placeholder. -/
def c1s1 (cid mid : String) : ReconState :=
  reconTick cid (c1Init cid) [c1Msg mid ""]

/-- State after the reconciler then observes content `"Hel"`. -/
def c1s2 (cid mid : String) : ReconState :=
  reconTick cid (c1s1 cid mid) [c1Msg mid "Hel"]

/-- State after the reconciler then observes content `"Hello"`. -/
def c1s3 (cid mid : String) : ReconState :=
  reconTick cid (c1s2 cid mid) [c1Msg mid "Hello"]

/-! ### Further scenario definitions used by the claim theorems -/

/-- An operation drawn from the message-mutating surface of the store. -/
inductive ConvOp where
  | add (id : String) (m : Message)
  | addMany (id : String) (ms : List Message)
  | upsert (id : String) (m : Message)
deriving DecidableEq, Repr

/-- Apply one store operation (dropping the success flag). -/
def applyOp (s : ConversationStore) (op : ConvOp) : ConversationStore :=
  match op with
  | .add id m => (s.addMessage id m).2
  | .addMany id ms => (s.addMessages id ms).2
  | .upsert id m => (s.upsertMessage id m).2

/-- Apply a sequence of store operations in order. -/
def applyOps (s : ConversationStore) (ops : List ConvOp) : ConversationStore :=
  ops.foldl applyOp s

/-- The `messageCount` invariant: the stored count equals the length of
the message list. -/
def convInv (c : Conversation) : Prop :=
  c.messageCount = c.messages.length

instance (c : Conversation) : Decidable (convInv c) := by
  unfold convInv
  infer_instance

/-- Request body of `POST /api/conversations/[id]/messages`: either a
single message with an optional `upsert` flag, or a message array. -/
inductive MessagesBody where
  | single (m : Message) (upsert : Bool)
  | many (ms : List Message)
deriving DecidableEq, Repr

/-- `POST /api/conversations/[id]/messages`: `messages` arrays go to
`addMessages`; a single message goes to `upsertMessage` when `upsert` is
set, else to `addMessage`. -/
def postMessagesRoute (s : ConversationStore) (id : String) (b : MessagesBody) :
    Bool × ConversationStore :=
  match b with
  | .many ms => s.addMessages id ms
  | .single m u => if u then s.upsertMessage id m else s.addMessage id m

/-- Event store holding one user-message event, used by the dedup claims. -/
def c2Store : EventStore :=
  EventStore.addEvent [] "c1" (mkUserMessageEvent "e1" "c1" "t1" "m1" "hi")

/-- Store holding one conversation, used by the cascade-delete claim. -/
def c4ConvStore : ConversationStore := [mkNewConversation 1 "c1" "t0"]

/-- Event store holding one event of that conversation. -/
def c4EventStore : EventStore :=
  EventStore.addEvent [] "c1" (mkUserMessageEvent "e1" "c1" "t1" "m1" "hi")

/-- Store whose single conversation holds one user message. -/
def c6Store : ConversationStore :=
  [{ mkNewConversation 1 "c1" "t0" with
     messages := [⟨"m1", Role.user, "a"⟩], messageCount := 1 }]

/-- Event store holding one user-message event, target of an update. -/
def c7Store : EventStore :=
  [("c1", [mkUserMessageEvent "e1" "c1" "t1" "m1" "hi"])]

/-- An update payload whose `type` field is present. -/
def c7Updates : EventUpdates := { type := some EventType.a2aCall }

/-- Store holding one fresh conversation, used by the uniqueness claim. -/
def c9Store : ConversationStore := [mkNewConversation 1 "c1" "t0"]

/-- A message posted twice in the uniqueness counterexample. -/
def c9Msg : Message := ⟨"m1", Role.user, "hi"⟩

/-- The uniqueness-scenario store after posting `c9Msg` once (no `upsert`
flag, so the route calls `addMessage`). -/
def c9Once : ConversationStore :=
  (postMessagesRoute c9Store "c1" (MessagesBody.single c9Msg false)).2

/-- The uniqueness-scenario store after posting the same message twice. -/
def c9Twice : ConversationStore :=
  (postMessagesRoute c9Once "c1" (MessagesBody.single c9Msg false)).2

/-- Store holding one fresh conversation, used by the update-frame claim. -/
def c10Store : ConversationStore := [mkNewConversation 1 "c10" "t0"]

/-- The store after `PATCH` with body `{ messageCount: 5 }`. -/
def c10Patched : ConversationStore :=
  (patchConversationRoute c10Store "c10" { messageCount := some 5 }).2

/-- The patched store after a further name-only `PATCH`. -/
def c10Renamed : ConversationStore :=
  (patchConversationRoute c10Patched "c10" { name := some "renamed" }).2

/-- The patched store after a subsequent `addMessage`. -/
def c10AfterAdd : ConversationStore :=
  (c10Patched.addMessage "c10" ⟨"m1", Role.user, "hi"⟩).2

/-- One simulated tool invocation: the logger starts fresh and observes the
statuses `idle`, `executing`, `executing`, `complete` at instants
`t1 ≤ t2 ≤ t3 ≤ t4`. -/
def c8Run (cid actionId agentName task resultText : String) (t1 t2 t3 t4 : Int) : LoggerState :=
  observeAll cid actionId agentName task resultText ⟨none, 0, 0, []⟩
    [⟨"idle", t1⟩, ⟨"executing", t2⟩, ⟨"executing", t3⟩, ⟨"complete", t4⟩]

/-! ## Theorems -/

/-! ### Helper lemmas on the store embeddings -/

theorem getEvents_setEvents (s : EventStore) (cid : String) (evs : List Event) :
    (EventStore.setEvents s cid evs).getEvents cid = evs := by
  induction s with
  | nil => simp [EventStore.setEvents, EventStore.getEvents, EventStore.getEntry]
  | cons p t ih =>
    by_cases h : p.1 = cid
    · simp [EventStore.setEvents, EventStore.getEvents, EventStore.getEntry, h]
    · simpa [EventStore.setEvents, EventStore.getEvents, EventStore.getEntry, h] using ih

theorem findMsgEvent_append_none (evs : List Event) (mid : Option String) (u : Event)
    (h : EventStore.findMsgEvent evs mid = none) :
    EventStore.findMsgEvent (evs ++ [u]) mid
      = if isMessageEvent u ∧ u.messageId = mid then some u else none := by
  induction evs with
  | nil => simp [EventStore.findMsgEvent]
  | cons x t ih =>
    by_cases hx : isMessageEvent x ∧ x.messageId = mid
    · simp [EventStore.findMsgEvent, hx] at h
    · simp only [EventStore.findMsgEvent, List.cons_append, if_neg hx] at h ⊢
      exact ih h

theorem mem_updateFirst (s : ConversationStore) (id : String)
    (f : Conversation → Conversation) (c : Conversation)
    (hc : c ∈ ConversationStore.updateFirst s id f) :
    c ∈ s ∨ ∃ c0, c0 ∈ s ∧ c = f c0 := by
  induction s with
  | nil => simp [ConversationStore.updateFirst] at hc
  | cons x t ih =>
    by_cases h : x.id = id
    · simp only [ConversationStore.updateFirst, if_pos h, List.mem_cons] at hc
      rcases hc with h1 | h1
      · exact Or.inr ⟨x, by simp, h1⟩
      · exact Or.inl (by simp [h1])
    · simp only [ConversationStore.updateFirst, if_neg h, List.mem_cons] at hc
      rcases hc with h1 | h1
      · exact Or.inl (by simp [h1])
      · rcases ih h1 with h2 | ⟨c0, hc0, hceq⟩
        · exact Or.inl (by simp [h2])
        · exact Or.inr ⟨c0, by simp [hc0], hceq⟩

theorem get_updateFirst (s : ConversationStore) (id : String)
    (f : Conversation → Conversation) (hf : ∀ c, (f c).id = c.id) :
    (ConversationStore.updateFirst s id f).get id = (s.get id).map f := by
  induction s with
  | nil => simp [ConversationStore.updateFirst, ConversationStore.get]
  | cons x t ih =>
    by_cases h : x.id = id
    · simp [ConversationStore.updateFirst, ConversationStore.get, h, hf x]
    · simp [ConversationStore.updateFirst, ConversationStore.get, h, ih]

theorem get_eq_none_iff (s : ConversationStore) (id : String) :
    s.get id = none ↔ ∀ c ∈ s, ¬ c.id = id := by
  induction s with
  | nil => simp [ConversationStore.get]
  | cons x t ih =>
    by_cases h : x.id = id
    · simp [ConversationStore.get, h]
    · simp [ConversationStore.get, h, ih]

/-! ### C2 — event deduplication -/

/-- C2 — counterexample: the claim asserts that an event of a *different*
type with the same `messageId` does not block insertion, but adding an
`AssistantMessage` event whose `messageId` matches an existing
`UserMessage` event is silently discarded by `addEvent` (the dedup
pre-check matches either message type). -/
theorem c2_counterexample :
    (c2Store.addEvent "c1" (mkAssistantMessageEvent "e2" "c1" "t2" "m1" "hello")).getEvents "c1"
      = [mkUserMessageEvent "e1" "c1" "t1" "m1" "hi"] ∧
    (c2Store.addEvent "c1" (mkAssistantMessageEvent "e2" "c1" "t2" "m1" "hello")).getEventCount "c1"
      = c2Store.getEventCount "c1" := by
  decide

/-- C2 — amended: `addEvent` silently discards a `UserMessage` or
`AssistantMessage` event whenever the conversation log already holds an
event of *either* message type with the same `messageId` (so the
same-type case of the claim holds, but a different message type with the
same `messageId` also blocks); when no such event exists, the event is
appended; events whose type is not a message type are always appended and
never deduplicated; and two `UserMessage` events with the same `messageId`
leave only the first, raising `getEventCount` by exactly one. -/
theorem c2_event_dedup (s : EventStore) (cid : String) (e other : Event)
    (hmsg : isMessageEvent e) (hother : ¬ isMessageEvent other) :
    (∀ ex, s.findEventByMessageId cid e.messageId = some ex → s.addEvent cid e = s) ∧
    (s.findEventByMessageId cid e.messageId = none →
      (s.addEvent cid e).getEvents cid = s.getEvents cid ++ [e]) ∧
    ((s.addEvent cid other).getEvents cid = s.getEvents cid ++ [other]) ∧
    (∀ u1 u2 : Event, u1.type = EventType.userMessage → u2.type = EventType.userMessage →
      u1.messageId = u2.messageId →
      s.findEventByMessageId cid u1.messageId = none →
      ((s.addEvent cid u1).addEvent cid u2).getEventCount cid = s.getEventCount cid + 1) := by
  refine ⟨?_, ?_, ?_, ?_⟩
  · intro ex hex
    simp [EventStore.addEvent, EventStore.findEventByMessageId] at hex ⊢
    simp [hex, hmsg]
  · intro hnone
    simp [EventStore.findEventByMessageId] at hnone
    simp [EventStore.addEvent, hnone, getEvents_setEvents]
  · simp [EventStore.addEvent, hother, getEvents_setEvents]
  · intro u1 u2 h1 h2 hmid hnone
    have hm1 : isMessageEvent u1 := Or.inl h1
    have hm2 : isMessageEvent u2 := Or.inl h2
    simp [EventStore.findEventByMessageId] at hnone
    have hstep1 : (s.addEvent cid u1).getEvents cid = s.getEvents cid ++ [u1] := by
      simp [EventStore.addEvent, hnone, getEvents_setEvents]
    have hfound : EventStore.findMsgEvent ((s.addEvent cid u1).getEvents cid) u2.messageId
        = some u1 := by
      rw [hstep1, findMsgEvent_append_none _ _ _ (hmid ▸ hnone)]
      simp [hm1, hmid]
    have hstep2 : (s.addEvent cid u1).addEvent cid u2 = s.addEvent cid u1 := by
      simp [EventStore.addEvent, EventStore.findEventByMessageId] at hfound ⊢
      simp [hfound, hm2]
    rw [hstep2]
    simp [EventStore.getEventCount, hstep1]

/-- Witness for C2 at a concrete input: a first user-message event on an
empty store is appended. -/
theorem c2_event_dedup_witness :
    (EventStore.addEvent [] "c1" (mkUserMessageEvent "e1" "c1" "t1" "m1" "hi")).getEvents "c1"
      = EventStore.getEvents [] "c1" ++ [mkUserMessageEvent "e1" "c1" "t1" "m1" "hi"] :=
  (c2_event_dedup [] "c1" (mkUserMessageEvent "e1" "c1" "t1" "m1" "hi")
    (mkA2ACallEvent "e9" "c1" "t9" "a1" "agent" "task") (by decide) (by decide)).2.1 (by decide)

/-! ### C3 — the messageCount invariant -/

theorem convInv_applyOp (s : ConversationStore) (op : ConvOp)
    (h : ∀ c ∈ s, convInv c) : ∀ c ∈ applyOp s op, convInv c := by
  intro c hc
  cases op with
  | add id m =>
    simp only [applyOp, ConversationStore.addMessage] at hc
    cases hget : s.get id with
    | none => rw [hget] at hc; exact h c hc
    | some c0 =>
      rw [hget] at hc
      rcases mem_updateFirst _ _ _ _ hc with h1 | ⟨c1, _, hceq⟩
      · exact h c h1
      · subst hceq; simp [convInv]
  | addMany id ms =>
    simp only [applyOp, ConversationStore.addMessages] at hc
    cases hget : s.get id with
    | none => rw [hget] at hc; exact h c hc
    | some c0 =>
      rw [hget] at hc
      rcases mem_updateFirst _ _ _ _ hc with h1 | ⟨c1, _, hceq⟩
      · exact h c h1
      · subst hceq; simp [convInv]
  | upsert id m =>
    simp only [applyOp, ConversationStore.upsertMessage] at hc
    cases hget : s.get id with
    | none => rw [hget] at hc; exact h c hc
    | some c0 =>
      rw [hget] at hc
      rcases mem_updateFirst _ _ _ _ hc with h1 | ⟨c1, _, hceq⟩
      · exact h c h1
      · subst hceq; simp [convInv]

/-- C3 — messageCount invariant: if every conversation in the store
satisfies `messageCount = messages.length` (as every conversation does at
creation), then after any finite sequence of `addMessage` / `addMessages`
/ `upsertMessage` calls every conversation still satisfies it. -/
theorem c3_messageCount_invariant (s : ConversationStore) (ops : List ConvOp)
    (h : ∀ c ∈ s, convInv c) :
    ∀ c ∈ applyOps s ops, convInv c := by
  induction ops generalizing s with
  | nil => simpa [applyOps] using h
  | cons op t ih =>
    intro c hc
    exact ih (applyOp s op) (convInv_applyOp s op h) c (by simpa [applyOps] using hc)

/-- Witness for C3 at a concrete input: after an add and an upsert on a
fresh conversation the invariant holds for the resulting conversation. -/
theorem c3_messageCount_invariant_witness :
    convInv { id := "c1", name := "Conversation 1", threadId := "thread_c1",
              createdAt := "t0", messageCount := 2,
              messages := [⟨"m1", Role.user, "hi"⟩, ⟨"m2", Role.assistant, "yo"⟩] } :=
  c3_messageCount_invariant [mkNewConversation 1 "c1" "t0"]
    [ConvOp.add "c1" ⟨"m1", Role.user, "hi"⟩, ConvOp.upsert "c1" ⟨"m2", Role.assistant, "yo"⟩]
    (by decide) _ (by decide)

/-- C1 — Streaming reconciliation: when one assistant message's content
transitions `"" → "Hel" → "Hello"` across three reconciler ticks, tick 1
changes nothing at all (no upsert, no event, `lastSavedContent` not
updated), tick 2 leaves exactly one `AssistantMessage` event with content
`"Hel"`, and tick 3 leaves that same event (same event id `"evt_0"`) with
content `"Hello"` and the event count still one. -/
theorem c1_streaming_reconciliation (cid mid : String) :
    c1s1 cid mid = c1Init cid ∧
    (c1s2 cid mid).eventStore.getEvents cid
      = [mkAssistantMessageEvent "evt_0" cid "ts_0" mid "Hel"] ∧
    (c1s3 cid mid).eventStore.getEvents cid
      = [mkAssistantMessageEvent "evt_0" cid "ts_0" mid "Hello"] := by
  have h1 : hasNonWhitespace "Hel" = true := by decide
  have h2 : hasNonWhitespace "Hello" = true := by decide
  have h3 : ("Hel" : String) = "Hello" → False := by decide
  refine ⟨?_, ?_, ?_⟩
  · simp [c1s1, reconTick, c1Init, c1Msg, processMessage, mapGet]
  · simp [c1s2, c1s1, reconTick, c1Init, c1Msg, processMessage, mapGet, mapSet, h1,
      ConversationStore.upsertMessage, ConversationStore.get, ConversationStore.updateFirst,
      upsertList, mkNewConversation, EventStore.addEvent, EventStore.getEvents,
      EventStore.getEntry, EventStore.setEvents, EventStore.findMsgEvent, isMessageEvent,
      mkAssistantMessageEvent, genEventId, genTimestamp]
    decide
  · simp [c1s3, c1s2, c1s1, reconTick, c1Init, c1Msg, processMessage, mapGet, mapSet, h1, h2, h3,
      ConversationStore.upsertMessage, ConversationStore.get, ConversationStore.updateFirst,
      upsertList, mkNewConversation, EventStore.addEvent, EventStore.getEvents,
      EventStore.getEntry, EventStore.setEvents, EventStore.findMsgEvent, isMessageEvent,
      mkAssistantMessageEvent, EventStore.updateEvent, EventStore.updateEventList,
      mergeEvent, mergeOpt, genEventId, genTimestamp]
    decide

/-- C8 — Call/response correlation: an invocation observed as
`idle → executing → executing → complete` logs exactly one `A2ACall` and
one `A2AResponse` (the `executing` edge fires once although `executing` is
reported twice), the two events carry the same `actionId`, and the
response's `durationMs` equals the elapsed time `t4 - t2 ≥ 0`. -/
theorem c8_call_response_correlation (cid actionId agentName task resultText : String)
    (t1 t2 t3 t4 : Int) (h23 : t2 ≤ t3) (h34 : t3 ≤ t4) :
    (c8Run cid actionId agentName task resultText t1 t2 t3 t4).eventStore.getEvents cid
      = [mkA2ACallEvent "evt_0" cid "ts_0" actionId agentName task,
         mkA2AResponseEvent "evt_1" cid "ts_1" actionId agentName task resultText
           (some (t4 - t2)) ResponseStatus.success] ∧
    0 ≤ t4 - t2 := by
  constructor
  · simp [c8Run, observeAll, observeStatus, EventStore.addEvent, EventStore.getEvents,
      EventStore.getEntry, EventStore.setEvents, EventStore.findMsgEvent, isMessageEvent,
      mkA2ACallEvent, mkA2AResponseEvent, genEventId, genTimestamp]
    decide
  · omega

/-! ### C4 — conversation deletion -/

theorem deleteConv_found (cs : ConversationStore) (id : String)
    (hex : (cs.get id).isSome = true) : (cs.deleteConv id).1 = true := by
  induction cs with
  | nil => simp [ConversationStore.get] at hex
  | cons x t ih =>
    by_cases h : x.id = id
    · simp [ConversationStore.deleteConv, h]
    · simp only [ConversationStore.get, if_neg h] at hex
      simp [ConversationStore.deleteConv, h, ih hex]

theorem get_deleteConv_self (cs : ConversationStore) (id : String)
    (hnd : (cs.map Conversation.id).Nodup) :
    ((cs.deleteConv id).2).get id = none := by
  induction cs with
  | nil => simp [ConversationStore.deleteConv, ConversationStore.get]
  | cons x t ih =>
    simp only [List.map_cons, List.nodup_cons] at hnd
    by_cases h : x.id = id
    · simp only [ConversationStore.deleteConv, if_pos h]
      rw [get_eq_none_iff]
      intro c hc hceq
      have hmem : c.id ∈ t.map Conversation.id := List.mem_map_of_mem _ hc
      rw [hceq, ← h] at hmem
      exact hnd.1 hmem
    · simp only [ConversationStore.deleteConv, if_neg h]
      simp [ConversationStore.get, h]
      exact ih hnd.2

theorem deleteConv_none (cs : ConversationStore) (id : String)
    (hge : cs.get id = none) : cs.deleteConv id = (false, cs) := by
  induction cs with
  | nil => simp [ConversationStore.deleteConv]
  | cons x t ih =>
    simp only [ConversationStore.get] at hge
    by_cases h : x.id = id
    · simp [h] at hge
    · simp only [if_neg h] at hge
      simp [ConversationStore.deleteConv, h, ih hge]

/-- C4 — counterexample: the `DELETE` route deletes only the conversation;
with one event logged for `"c1"`, the delete succeeds yet a subsequent
`getEvents` on that id is *not* empty, contradicting the claimed cascade. -/
theorem c4_counterexample :
    (deleteConversationRoute c4ConvStore c4EventStore "c1").1 = true ∧
    ¬ (deleteConversationRoute c4ConvStore c4EventStore "c1").2.2.getEvents "c1" = [] := by
  decide

/-- C4 — amended: after a successful delete, `get` on the conversation
store returns not-found and a second delete returns `false` (not an
error), but the route leaves the event store untouched, so `getEvents` on
the deleted id still returns exactly the events it returned before (no
cascade exists in the code). -/
theorem c4_delete_no_cascade (cs : ConversationStore) (es : EventStore) (id : String)
    (hnd : (cs.map Conversation.id).Nodup)
    (hex : (cs.get id).isSome = true) :
    (deleteConversationRoute cs es id).1 = true ∧
    (deleteConversationRoute cs es id).2.1.get id = none ∧
    (deleteConversationRoute (deleteConversationRoute cs es id).2.1 es id).1 = false ∧
    (deleteConversationRoute cs es id).2.2.getEvents id = es.getEvents id := by
  have h1 := deleteConv_found cs id hex
  have h2 := get_deleteConv_self cs id hnd
  have h3 := deleteConv_none ((cs.deleteConv id).2) id h2
  exact ⟨by simp [deleteConversationRoute, h1], by simp [deleteConversationRoute, h2],
    by simp [deleteConversationRoute, h3], by simp [deleteConversationRoute]⟩

/-- Witness for C4 at a concrete input. -/
theorem c4_delete_no_cascade_witness :
    (deleteConversationRoute c4ConvStore c4EventStore "c1").1 = true ∧
    (deleteConversationRoute c4ConvStore c4EventStore "c1").2.1.get "c1" = none ∧
    (deleteConversationRoute
      (deleteConversationRoute c4ConvStore c4EventStore "c1").2.1 c4EventStore "c1").1 = false ∧
    (deleteConversationRoute c4ConvStore c4EventStore "c1").2.2.getEvents "c1"
      = c4EventStore.getEvents "c1" :=
  c4_delete_no_cascade c4ConvStore c4EventStore "c1" (by decide) (by decide)

/-! ### C5 — registry URL normalization -/

/-- C5 — counterexample: after registering `"http://x:9000/"` (stored
under the key `"http://x:9000"`), registering `"x:9000"` does *not*
conflict — the route strips a trailing slash but never prefixes a scheme,
so the key is `"x:9000"`, not `"http://x:9000"`. -/
theorem c5_counterexample :
    (registerAgentOk (registerAgentOk [] "http://x:9000/").2 "x:9000").1
      = RegisterOutcome.proceed "x:9000" ∧
    ¬ ("x:9000" : String) = "http://x:9000" := by
  decide

/-- C5 — amended: `"http://x:9000/"` and `"http://x:9000"` normalize to
the same registry key `"http://x:9000"` (one trailing slash stripped), so
registering one after the other yields Conflict; but `"x:9000"` keeps its
missing scheme in the registry key and does not conflict — the
`http://`-prefixing happens only inside `fetchAgentCard` when building the
card URL. -/
theorem c5_registry_normalization :
    (registerAgentOk [] "http://x:9000/").2 = ["http://x:9000"] ∧
    (registerAgentOk ["http://x:9000"] "http://x:9000").1
      = RegisterOutcome.conflict "http://x:9000" ∧
    (registerAgentOk ["http://x:9000"] "http://x:9000/").1
      = RegisterOutcome.conflict "http://x:9000" ∧
    (registerAgentOk ["http://x:9000"] "x:9000").1 = RegisterOutcome.proceed "x:9000" ∧
    fetchCardNormalize "x:9000" = "http://x:9000" := by
  decide

/-! ### C6 — upsert and the stored role -/

theorem upsertList_replace_first (pre post : List Message) (x m : Message)
    (hpre : ∀ y ∈ pre, ¬ y.id = m.id) (hx : x.id = m.id) :
    upsertList (pre ++ x :: post) m = pre ++ m :: post := by
  induction pre with
  | nil => simp [upsertList, hx]
  | cons a t ih =>
    have ha : ¬ a.id = m.id := hpre a (by simp)
    simp only [List.cons_append, upsertList, if_neg ha, List.append_eq]
    rw [ih (fun y hy => hpre y (by simp [hy]))]

/-- C6 — counterexample: upserting a message whose `id` matches a stored
user message but whose role is `assistant` replaces the whole message, so
the stored role changes — contradicting "never changes the stored
message's role". -/
theorem c6_counterexample :
    (c6Store.getMessages "c1").map Message.role = [Role.user] ∧
    (((c6Store.upsertMessage "c1" ⟨"m1", Role.assistant, "b"⟩).2).getMessages "c1").map
        Message.role
      = [Role.assistant] := by
  decide

/-- C6 — amended: `upsertMessage` replaces the *entire* stored message in
place (same position: everything before and after the first message with a
matching id is unchanged), so the stored entry takes the new message's
content *and* role; the role is preserved only when the caller passes the
same role. -/
theorem c6_upsert_replaces_in_place (s : ConversationStore) (id : String)
    (m x : Message) (c : Conversation) (pre post : List Message)
    (hget : s.get id = some c)
    (hmsgs : c.messages = pre ++ x :: post)
    (hpre : ∀ y ∈ pre, ¬ y.id = m.id)
    (hx : x.id = m.id) :
    ((s.upsertMessage id m).2).getMessages id = pre ++ m :: post := by
  have hmain : ((s.upsertMessage id m).2).get id
      = some { c with messages := upsertList c.messages m,
                      messageCount := (upsertList c.messages m).length } := by
    simp only [ConversationStore.upsertMessage, hget]
    rw [get_updateFirst]
    · simp [hget]
    · intro c0; rfl
  simp [ConversationStore.getMessages, hmain, hmsgs,
    upsertList_replace_first pre post x m hpre hx]

/-- Witness for C6 at a concrete input. -/
theorem c6_upsert_replaces_in_place_witness :
    ((c6Store.upsertMessage "c1" ⟨"m1", Role.assistant, "b"⟩).2).getMessages "c1"
      = [] ++ (⟨"m1", Role.assistant, "b"⟩ : Message) :: [] :=
  c6_upsert_replaces_in_place c6Store "c1" ⟨"m1", Role.assistant, "b"⟩ ⟨"m1", Role.user, "a"⟩
    { id := "c1", name := "Conversation 1", threadId := "thread_c1", createdAt := "t0",
      messageCount := 1, messages := [⟨"m1", Role.user, "a"⟩] }
    [] [] (by decide) (by decide) (by decide) (by decide)

/-! ### C7 — the updateEvent contract -/

theorem updateEventList_none_iff (evs : List Event) (eid : String) (u : EventUpdates) :
    EventStore.updateEventList evs eid u = none ↔ ∀ e ∈ evs, ¬ e.id = eid := by
  induction evs with
  | nil => simp [EventStore.updateEventList]
  | cons e t ih =>
    by_cases h : e.id = eid
    · simp [EventStore.updateEventList, h]
    · simp [EventStore.updateEventList, h, ih]

theorem updateEventList_first (pre post : List Event) (e : Event) (eid : String)
    (u : EventUpdates) (hpre : ∀ x ∈ pre, ¬ x.id = eid) (he : e.id = eid) :
    EventStore.updateEventList (pre ++ e :: post) eid u
      = some (pre ++ mergeEvent e u :: post) := by
  induction pre with
  | nil => simp [EventStore.updateEventList, he]
  | cons a t ih =>
    have ha : ¬ a.id = eid := hpre a (by simp)
    simp only [List.cons_append, EventStore.updateEventList, if_neg ha, List.append_eq]
    rw [ih (fun y hy => hpre y (by simp [hy]))]
    rfl

/-- C7 — counterexample: an update payload containing a `type` field
changes the event's type discriminant (the merge is a blind object
spread), contradicting "the event's type after the call equals its type
before the call, regardless of the contents of partialFields". -/
theorem c7_counterexample :
    (c7Store.getEvents "c1").map Event.type = [EventType.userMessage] ∧
    ((c7Store.updateEvent "c1" "e1" c7Updates).2.getEvents "c1").map Event.type
      = [EventType.a2aCall] := by
  decide

/-- C7 — amended: `updateEvent` returns `false` exactly when no event in
the conversation's log has the given id (in particular when the
conversation is absent) and then leaves the store unchanged; on success it
merges the provided fields into the first matching event in place, leaving
all other events untouched; the `type` discriminant is preserved whenever
the update payload does not itself contain a `type` field (a payload with
a `type` field overwrites it). -/
theorem c7_updateEvent_contract (s : EventStore) (cid eid : String) (u : EventUpdates) :
    ((s.updateEvent cid eid u).1 = false ↔ ∀ e ∈ s.getEvents cid, ¬ e.id = eid) ∧
    ((s.updateEvent cid eid u).1 = false → (s.updateEvent cid eid u).2 = s) ∧
    (∀ pre post e, s.getEvents cid = pre ++ e :: post →
      (∀ x ∈ pre, ¬ x.id = eid) → e.id = eid →
      (s.updateEvent cid eid u).2.getEvents cid = pre ++ mergeEvent e u :: post) ∧
    (u.type = none → ∀ e, (mergeEvent e u).type = e.type) := by
  refine ⟨?_, ?_, ?_, ?_⟩
  · cases hentry : s.getEntry cid with
    | none =>
      simp [EventStore.updateEvent, hentry, EventStore.getEvents]
    | some evs =>
      cases hupd : EventStore.updateEventList evs eid u with
      | none =>
        simp only [EventStore.updateEvent, hentry, hupd, EventStore.getEvents]
        simpa using (updateEventList_none_iff evs eid u).mp hupd
      | some evs' =>
        simp only [EventStore.updateEvent, hentry, hupd, EventStore.getEvents]
        constructor
        · intro h; exact absurd h (by simp)
        · intro hall
          have : EventStore.updateEventList evs eid u = none := by
            rw [updateEventList_none_iff]
            simpa using hall
          rw [this] at hupd
          exact absurd hupd (by simp)
  · intro hfail
    cases hentry : s.getEntry cid with
    | none => simp [EventStore.updateEvent, hentry]
    | some evs =>
      cases hupd : EventStore.updateEventList evs eid u with
      | none => simp [EventStore.updateEvent, hentry, hupd]
      | some evs' =>
        rw [EventStore.updateEvent, hentry] at hfail
        simp [hupd] at hfail
  · intro pre post e hsplit hpre he
    cases hentry : s.getEntry cid with
    | none =>
      rw [EventStore.getEvents, hentry] at hsplit
      exact absurd hsplit.symm (by simp)
    | some evs =>
      rw [EventStore.getEvents, hentry] at hsplit
      simp only [Option.getD_some] at hsplit
      have hupd := updateEventList_first pre post e eid u hpre he
      rw [← hsplit] at hupd
      simp only [EventStore.updateEvent, hentry, hupd]
      exact getEvents_setEvents s cid _
  · intro htype e
    simp [mergeEvent, htype]

/-- Witness for C7 at a concrete input: updating an absent event id
returns `false`. -/
theorem c7_updateEvent_contract_witness :
    (EventStore.updateEvent c7Store "c1" "e9" { content := some "x" }).1 = false :=
  (c7_updateEvent_contract c7Store "c1" "e9" { content := some "x" }).1.mpr (by decide)

/-! ### C9 — message id uniqueness -/

theorem upsertList_ids_mem (ms : List Message) (m : Message) (a : String)
    (h : a ∈ (upsertList ms m).map Message.id) :
    a = m.id ∨ a ∈ ms.map Message.id := by
  induction ms with
  | nil =>
    simp [upsertList] at h
    exact Or.inl h
  | cons x t ih =>
    by_cases hx : x.id = m.id
    · simp only [upsertList, if_pos hx, List.map_cons, List.mem_cons] at h
      rcases h with h | h
      · exact Or.inl h
      · exact Or.inr (by simp [h])
    · simp only [upsertList, if_neg hx, List.map_cons, List.mem_cons] at h
      rcases h with h | h
      · exact Or.inr (by simp [h])
      · rcases ih h with h2 | h2
        · exact Or.inl h2
        · exact Or.inr (by simp [h2])

theorem upsertList_ids_nodup (ms : List Message) (m : Message)
    (h : (ms.map Message.id).Nodup) : ((upsertList ms m).map Message.id).Nodup := by
  induction ms with
  | nil => simp [upsertList]
  | cons x t ih =>
    simp only [List.map_cons, List.nodup_cons] at h
    by_cases hx : x.id = m.id
    · simp only [upsertList, if_pos hx, List.map_cons, List.nodup_cons]
      exact ⟨hx ▸ h.1, h.2⟩
    · simp only [upsertList, if_neg hx, List.map_cons, List.nodup_cons]
      refine ⟨?_, ih h.2⟩
      intro hmem
      rcases upsertList_ids_mem t m x.id hmem with h2 | h2
      · exact hx h2
      · exact h.1 h2

/-- C9 — counterexample: posting the same message twice through
`POST /api/conversations/[id]/messages` without the `upsert` flag (which
calls `addMessage`, an unconditional append) leaves two messages with the
same id in the conversation, so ids are not pairwise distinct. -/
theorem c9_counterexample :
    ¬ ((c9Twice.getMessages "c1").map Message.id).Nodup := by
  decide

/-- C9 — amended: `upsertMessage` preserves pairwise-distinct message ids
(replace-in-place keeps the id multiset, append only happens when the id
is absent), but `addMessage`/`addMessages` append unconditionally and can
introduce duplicate ids, also through the HTTP surface. -/
theorem c9_upsert_preserves_unique_ids (s : ConversationStore) (id : String) (m : Message)
    (c : Conversation) (hget : s.get id = some c)
    (hnd : (c.messages.map Message.id).Nodup) :
    ((s.upsertMessage id m).2).get id
      = some { c with messages := upsertList c.messages m,
                      messageCount := (upsertList c.messages m).length } ∧
    ((upsertList c.messages m).map Message.id).Nodup := by
  constructor
  · simp only [ConversationStore.upsertMessage, hget]
    rw [get_updateFirst]
    · simp [hget]
    · intro c0; rfl
  · exact upsertList_ids_nodup c.messages m hnd

/-- Witness for C9 at a concrete input. -/
theorem c9_upsert_preserves_unique_ids_witness :
    ((c9Store.upsertMessage "c1" c9Msg).2).get "c1"
      = some { mkNewConversation 1 "c1" "t0" with
               messages := upsertList (mkNewConversation 1 "c1" "t0").messages c9Msg,
               messageCount := (upsertList (mkNewConversation 1 "c1" "t0").messages c9Msg).length } ∧
    ((upsertList (mkNewConversation 1 "c1" "t0").messages c9Msg).map Message.id).Nodup :=
  c9_upsert_preserves_unique_ids c9Store "c1" c9Msg (mkNewConversation 1 "c1" "t0")
    (by decide) (by decide)

/-! ### C10 — the update frame -/

/-- C10 — update frame: through `PATCH /api/conversations/[id]`,
`ConversationStore.update` merges the provided `name` and `messageCount`
verbatim and never touches `id`, `threadId`, `createdAt` or `messages`;
in particular a `{ messageCount: 5 }` body makes `messageCount` diverge
from `messages.length`, the divergence survives a further name-only patch,
and the next `addMessage` recomputes the count. -/
theorem c10_update_frame (s : ConversationStore) (id : String) (b : PatchBody)
    (c : Conversation) (hget : s.get id = some c) :
    ((patchConversationRoute s id b).2.get id
      = some { c with name := b.name.getD c.name,
                      messageCount := b.messageCount.getD c.messageCount }) ∧
    ((c10Patched.get "c10").map Conversation.messageCount = some 5 ∧
     (c10Patched.get "c10").map (fun c0 => c0.messages.length) = some 0) ∧
    ((c10Renamed.get "c10").map Conversation.messageCount = some 5 ∧
     (c10Renamed.get "c10").map (fun c0 => c0.messages.length) = some 0) ∧
    ((c10AfterAdd.get "c10").map Conversation.messageCount = some 1 ∧
     (c10AfterAdd.get "c10").map (fun c0 => c0.messages.length) = some 1) := by
  refine ⟨?_, by decide, by decide, by decide⟩
  simp only [patchConversationRoute, ConversationStore.update, hget]
  rw [get_updateFirst]
  · simp [hget, applyConvUpdates]
  · intro c0; rfl

/-- Witness for C10 at a concrete input. -/
theorem c10_update_frame_witness :
    (patchConversationRoute c10Store "c10" { messageCount := some 5 }).2.get "c10"
      = some { id := "c10", name := "Conversation 1", threadId := "thread_c10",
               createdAt := "t0", messageCount := 5, messages := [] } := by
  have h := (c10_update_frame c10Store "c10" { messageCount := some 5 }
    (mkNewConversation 1 "c10" "t0") (by decide)).1
  simpa [mkNewConversation] using h

/-- Witness for C8 at a concrete input. -/
theorem c8_call_response_correlation_witness :
    (c8Run "c1" "a1" "Weather Agent" "forecast" "sunny" 0 1 2 3).eventStore.getEvents "c1"
      = [mkA2ACallEvent "evt_0" "c1" "ts_0" "a1" "Weather Agent" "forecast",
         mkA2AResponseEvent "evt_1" "c1" "ts_1" "a1" "Weather Agent" "forecast" "sunny"
           (some ((3 : Int) - 1)) ResponseStatus.success] ∧
    (0 : Int) ≤ 3 - 1 :=
  c8_call_response_correlation "c1" "a1" "Weather Agent" "forecast" "sunny" 0 1 2 3
    (by norm_num) (by norm_num)

end A2ADemo
